import Mathlib

/-!
Verification of the garden pipeline composition engine.

The development shallowly embeds the type-directed step composition engine
(signature descriptors, the composability checker with its two delivery
modes, the composite builder) together with the pipeline-level validation
and metadata passes of garden_ai/pipelines.py (step-composability
validation, dependency reconciliation, author/contributor synchronisation).
-/

namespace Garden

/-- Modelled from the spec: the `TypeDescriptor` tagged variant representing a
declared parameter or return type (the original derives these from Python
annotations in garden_ai/steps.py, which only declares them here).
`Simple` is one concrete named type, `Union` a set of alternatives (order
irrelevant, duplicates collapsed — set semantics are imposed by the equality
and membership functions below), `Tup` a fixed-arity ordered tuple whose
positions are significant. -/
inductive TypeDescriptor where
  | Simple : String → TypeDescriptor
  | Union : List String → TypeDescriptor
  | Tup : List TypeDescriptor → TypeDescriptor

mutual

/-- Modelled from the spec: structural equality of type descriptors.
Two unions are equal iff their name sets are equal; tuples are equal iff they
have the same arity and element-wise equal descriptors. -/
def tdEq : TypeDescriptor → TypeDescriptor → Bool
  | .Simple a, .Simple b => a == b
  | .Union a, .Union b => a.all (fun n => b.contains n) && b.all (fun n => a.contains n)
  | .Tup a, .Tup b => tdEqList a b
  | _, _ => false

/-- Element-wise equality of descriptor lists (tuple components). -/
def tdEqList : List TypeDescriptor → List TypeDescriptor → Bool
  | [], [] => true
  | x :: xs, y :: ys => tdEq x y && tdEqList xs ys
  | _, _ => false

end

mutual

/-- Modelled from the spec: whether a descriptor denotes or contains the
unconstrained "Any" type marker, which signature extraction must reject. -/
def containsAny : TypeDescriptor → Bool
  | .Simple n => n == "Any"
  | .Union ns => ns.contains "Any"
  | .Tup ds => containsAnyList ds

/-- Whether any descriptor in a list contains the "Any" marker. -/
def containsAnyList : List TypeDescriptor → Bool
  | [] => false
  | d :: ds => containsAny d || containsAnyList ds

end

/-- Modelled from the spec: the flat member-name set of a non-tuple
descriptor; a tuple has no flat member set (it is only usable for splat
matching or exact structural equality). -/
def members : TypeDescriptor → List String
  | .Simple n => [n]
  | .Union ns => ns
  | .Tup _ => []

/-- Whether a descriptor is a tuple descriptor. -/
def isTup : TypeDescriptor → Bool
  | .Tup _ => true
  | _ => false

/-- Modelled from the spec: `assignable(out, in)` is true iff neither side is
a tuple and `members(out) ⊆ members(in)`; a tuple descriptor is assignable
only via exact structural equality. -/
def assignable (o i : TypeDescriptor) : Bool :=
  if isTup o || isTup i then tdEq o i
  else (members o).all (fun n => (members i).contains n)

/-- Modelled from the spec: one declared parameter of a step's callable —
name, type descriptor, and whether a default value was declared. -/
structure ParameterSpec where
  name : String
  ty : TypeDescriptor
  has_default : Bool

/-- Modelled from the spec: a step's signature — the ordered required
parameters (defaulted parameters excluded) and the return type descriptor. -/
structure StepSignature where
  required_params : List ParameterSpec
  return_type : TypeDescriptor

/-- Modelled from the spec: building a `StepSignature` from the full declared
parameter list; parameters with a declared default are recorded but excluded
from `required_params`. -/
def mkSignature (params : List ParameterSpec) (ret : TypeDescriptor) : StepSignature :=
  { required_params := params.filter (fun p => !p.has_default), return_type := ret }

/-- The two value-delivery conventions between adjacent steps. -/
inductive DeliveryMode where
  | whole
  | splat
deriving DecidableEq

/-- Modelled from the spec: validity of splat mode — the producer returns a
tuple `Tup(T1..Tn)`, the consumer has exactly `n` required parameters, and
each `Ti` is assignable to the consumer's i-th required parameter, checked
strictly by position. -/
def splatCheck (ret : TypeDescriptor) (ps : List ParameterSpec) : Option DeliveryMode :=
  match ret with
  | .Tup ts =>
      if ts.length == ps.length
          && (ts.zip ps).all (fun pr => assignable pr.1 pr.2.ty)
      then some .splat
      else none
  | _ => none

/-- Modelled from the spec: the composability checker (the original lives in
garden_ai/utils/misc.py inside safe_compose, which only its callers appear
here). Whole-value mode is attempted first whenever the consumer has exactly
one required parameter; splat mode is the fallback. `none` models a
composition error. -/
def check (producer consumer : StepSignature) : Option DeliveryMode :=
  match consumer.required_params with
  | [p] =>
      if assignable producer.return_type p.ty then some .whole
      else splatCheck producer.return_type [p]
  | ps => splatCheck producer.return_type ps

/-- Runtime values passed between steps: integers, strings, and ordered
tuples of values (the shallow embedding of the Python values the toy steps
exchange). -/
inductive Value where
  | vInt : Int → Value
  | vStr : String → Value
  | vTup : List Value → Value

/-- Modelled from the spec: a step owns a callable and its frozen signature
(the original Step class lives in garden_ai/steps.py, which only its callers
appear here). The callable takes its positional arguments as a list. -/
structure Step where
  sig : StepSignature
  func : List Value → Value

/-- Modelled from the spec: delivering a producer's result to the next
consumer — whole-value mode passes the result unchanged as the sole
argument; splat mode unpacks an ordered tuple result positionally. -/
def deliver (m : DeliveryMode) (v : Value) : List Value :=
  match m with
  | .whole => [v]
  | .splat =>
      match v with
      | .vTup vs => vs
      | v => [v]

/-- Modelled from the spec: safe_compose (garden_ai/utils/misc.py, which
only its callers appear here). `safe_compose g f` runs `f` first and feeds
its result to `g` under the delivery mode the checker selects for the pair;
it fails (`none`, modelling the composition TypeError) when no mode
validates. The composite's signature takes `f`'s required parameters and
returns `g`'s return type. -/
def safe_compose (g f : Step) : Option Step :=
  match check f.sig g.sig with
  | some m =>
      some { sig := { required_params := f.sig.required_params,
                      return_type := g.sig.return_type },
             func := fun args => g.func (deliver m (f.func args)) }
  | none => none

/-- Translation of reduce(safe_compose, reversed(steps)) from
Pipeline.__post_init_post_parse__ and Pipeline.check_steps_composable
(garden_ai/pipelines.py): the steps are composed pairwise from the right, so
[s1, ..., sn] becomes safe_compose(...safe_compose(sn, s(n-1))..., s1);
`none` models the reduce raising (or the empty-sequence case, which the
validator rejects separately). -/
def composeAll : List Step → Option Step
  | [] => none
  | [s] => some s
  | s :: t :: ts =>
      match composeAll (t :: ts) with
      | some g => safe_compose g s
      | none => none

/-- Manually nesting the underlying step calls left to right: run the first
step on the initial arguments, then deliver each intermediate result to the
next step under the mode the checker selects for that adjacent pair. -/
def manualRun (s : Step) (rest : List Step) (args : List Value) : Option Value :=
  match rest with
  | [] => some (s.func args)
  | t :: ts =>
      match check s.sig t.sig with
      | some m => manualRun t ts (deliver m (s.func args))
      | none => none

/-- Translation of Pipeline.check_steps_composable (garden_ai/pipelines.py
lines 145-154): a pipeline with zero steps is rejected outright, and
otherwise the reduce over safe_compose must succeed. -/
def check_steps_composable (steps : List Step) : Except String (List Step) :=
  if steps.length = 0 then
    .error "Cannot have no steps in a pipeline."
  else
    match composeAll steps with
    | some _ => .ok steps
    | none => .error "steps are not composable"

/-- Modelled from the spec: one raw declared parameter of a Python callable,
before signature extraction — its annotation may be missing. -/
structure RawParam where
  name : String
  annotation : Option TypeDescriptor
  has_default : Bool

/-- Modelled from the spec: the raw declared surface of a Python callable
that signature extraction inspects. -/
structure RawCallable where
  params : List RawParam
  return_annotation : Option TypeDescriptor

/-- An annotation is acceptable iff it is present and does not denote or
contain the unconstrained "Any" type. -/
def annotationOk : Option TypeDescriptor → Bool
  | none => false
  | some d => !containsAny d

/-- Convert a raw (annotated) parameter into a `ParameterSpec`; only invoked
on parameters whose annotation is present. -/
def toParamSpec (p : RawParam) : ParameterSpec :=
  { name := p.name
    ty := p.annotation.getD (.Simple "untyped")
    has_default := p.has_default }

/-- Modelled from the spec: the signature extractor (the original lives in
garden_ai/steps.py, which only its tests appear here). It fails with
UntypedSignatureError if any parameter or the return value lacks an
annotation or any annotation denotes the unconstrained "Any" type; otherwise
it builds the step's frozen signature, excluding defaulted parameters from
`required_params`. -/
def extract (c : RawCallable) : Except String StepSignature :=
  if c.params.all (fun p => annotationOk p.annotation)
      && annotationOk c.return_annotation then
    .ok (mkSignature (c.params.map toParamSpec)
          (c.return_annotation.getD (.Simple "untyped")))
  else
    .error "UntypedSignatureError"

/-- A parsed pip requirement: distribution name plus the rest of the
specifier. Two requirements are equal iff both parts agree (mirroring
packaging.Requirement equality). -/
structure Requirement where
  name : String
  specifier : String
deriving DecidableEq

/-- The contents of a pipeline's requirements file: either a conda
environment.yml (python version hint, conda deps, pip deps) or a
requirements.txt (pip deps only). The file contents are embedded as data so
that reading the file is deterministic. -/
inductive ReqFile where
  | condaYml : Option String → List String → List Requirement → ReqFile
  | reqsTxt : List Requirement → ReqFile
deriving DecidableEq

/-- The metadata a Step carries that pipeline-level passes consume: its
name, authors/contributors, inferred dependency lists, referenced model
uris, and inferred python version. -/
structure StepMeta where
  name : String
  authors : List String
  contributors : List String
  pip_dependencies : List Requirement
  conda_dependencies : List String
  model_uris : List String
  python_version : Option String
deriving DecidableEq

/-- The mutable attributes of a Pipeline that _collect_requirements and
_sync_author_metadata (garden_ai/pipelines.py) read and update. -/
structure PipelineState where
  authors : List String
  contributors : List String
  steps : List StepMeta
  requirements_file : Option ReqFile
  python_version : Option String
  pip_dependencies : List Requirement
  conda_dependencies : List String
  model_uris : List String
deriving DecidableEq

/-- The non-fatal warnings _collect_requirements logs. -/
inductive DepWarning where
  | ignoredStepReq : String → Requirement → Requirement → DepWarning
  | missingStepReq : String → Requirement → DepWarning
  | missingCondaDep : String → String → DepWarning
  | multiplePyVersions : DepWarning
deriving DecidableEq

/-- Translation of the explicit_requirements dict comprehension
(pipelines.py lines 231-233): maps a distribution name to the pipeline's
explicit requirement for it; for duplicate names the last entry wins, hence
the search over the reversed list. -/
def explicitFor (reqs : List Requirement) (n : String) : Option Requirement :=
  reqs.reverse.find? (fun r => r.name == n)

/-- Translation of the per-step pip warning loop (pipelines.py lines
236-253): a step requirement whose package the pipeline explicitly requires
at a different version yields an ignored-requirement warning; one whose
package the pipeline does not require at all yields a possibly-missing
warning; either way nothing is added to the pipeline's dependencies. -/
def stepPipWarnings (explicit : List Requirement) (s : StepMeta) : List DepWarning :=
  s.pip_dependencies.filterMap (fun r =>
    match explicitFor explicit r.name with
    | some er => if r ≠ er then some (.ignoredStepReq s.name r er) else none
    | none => some (.missingStepReq s.name r))

/-- Translation of the per-step conda warning loop (pipelines.py lines
257-262): step conda dependencies absent from the pipeline's conda list are
warned about and not added. -/
def stepCondaWarnings (conda : List String) (s : StepMeta) : List DepWarning :=
  s.conda_dependencies.filterMap (fun r =>
    if r ∈ conda then none else some (.missingCondaDep s.name r))

/-- Insert into a string-keyed association list with Python dict semantics:
replace the value at an existing key in place, otherwise append. -/
def dictInsert (k : String) (v : Option String) :
    List (String × Option String) → List (String × Option String)
  | [] => [(k, v)]
  | e :: rest => if e.1 == k then (k, v) :: rest else e :: dictInsert k v rest

/-- Look up a key in the association list, flattening a missing key and a
stored None to the same `none`. -/
def dictGet (k : String) (d : List (String × Option String)) : Option String :=
  match d.find? (fun e => e.1 == k) with
  | some e => e.2
  | none => none

/-- The pipeline's pip dependencies after merging its requirements file
(pipelines.py lines 208-226); a .txt file's parsed dependency lines pass
through a python set, hence the dedup. -/
def mergedPip (p : PipelineState) : List Requirement :=
  match p.requirements_file with
  | some (.condaYml _ _ pds) => p.pip_dependencies ++ pds
  | some (.reqsTxt ds) => p.pip_dependencies ++ ds.dedup
  | none => p.pip_dependencies

/-- The pipeline's conda dependencies after merging its requirements file. -/
def mergedConda (p : PipelineState) : List String :=
  match p.requirements_file with
  | some (.condaYml _ cds _) => p.conda_dependencies ++ cds
  | _ => p.conda_dependencies

/-- The "pipeline" entry of the py_versions mapping after the requirements
file pass: a python version pinned in a conda yml overrides the declared
one. -/
def mergedPyVersion (p : PipelineState) : Option String :=
  match p.requirements_file with
  | some (.condaYml (some v) _ _) => some v
  | _ => p.python_version

/-- The py_versions mapping after the step loop (pipelines.py lines 202-206
and 265): initial "system" and "pipeline" entries, then one entry per step
keyed by the step's name. -/
def pyVersionDict (p : PipelineState) (sysv : String) :
    List (String × Option String) :=
  p.steps.foldl (fun d s => dictInsert s.name s.python_version d)
    [("system", some sysv), ("pipeline", mergedPyVersion p)]

/-- Translation of python_version = py_versions["pipeline"] or
py_versions["system"] (pipelines.py line 267). -/
def finalPyVersion (p : PipelineState) (sysv : String) : Option String :=
  match dictGet "pipeline" (pyVersionDict p sysv) with
  | some v => some v
  | none => dictGet "system" (pyVersionDict p sysv)

/-- The distinct non-None python versions across the py_versions mapping
(pipelines.py lines 271-273). -/
def distinctPyVersions (p : PipelineState) (sysv : String) : List String :=
  ((pyVersionDict p sysv).filterMap (fun e => e.2)).dedup

/-- Translation of Pipeline._collect_requirements (garden_ai/pipelines.py
lines 195-282): merge the requirements file into the explicit dependency
lists, log (but never keep) step-inferred requirements, collect model uris,
resolve the python version, and de-duplicate the final lists. Returns the
updated state together with the warnings logged, in order. -/
def collectRequirements (p : PipelineState) (sysv : String) :
    PipelineState × List DepWarning :=
  let pip1 := mergedPip p
  let conda1 := mergedConda p
  let stepWs := p.steps.flatMap (fun s =>
    stepPipWarnings pip1 s ++ stepCondaWarnings conda1 s)
  let versionWs :=
    if 1 < (distinctPyVersions p sysv).length
    then [DepWarning.multiplePyVersions] else []
  ({ p with
      python_version := finalPyVersion p sysv
      pip_dependencies := pip1.dedup
      conda_dependencies := conda1.dedup
      model_uris := p.model_uris ++ p.steps.flatMap (fun s => s.model_uris) },
   stepWs ++ versionWs)

/-- Translation of Pipeline._sync_author_metadata (garden_ai/pipelines.py
lines 318-325): the union of every step's authors and contributors, minus
the pipeline's own authors, is merged into the pipeline's contributors; the
authors list is untouched. The python sets are modelled by de-duplicated
lists compared by membership. -/
def syncAuthorMetadata (p : PipelineState) : PipelineState :=
  let known_contributors :=
    p.steps.foldl
      (fun known s =>
        (known ++
          ((s.authors ++ s.contributors).filter (fun n => n ∉ p.authors))).dedup)
      p.contributors.dedup
  { p with contributors := known_contributors }

/-- Concrete step A : (int) -> int of the spec's pipeline scenario. -/
def stepA : Step :=
  { sig := mkSignature [⟨"n", .Simple "int", false⟩] (.Simple "int")
    func := fun args =>
      match args with
      | [.vInt n] => .vInt (n + 1)
      | _ => .vInt 0 }

/-- Concrete step B : (int) -> Tuple(int, str) of the spec's scenario. -/
def stepB : Step :=
  { sig := mkSignature [⟨"n", .Simple "int", false⟩]
      (.Tup [.Simple "int", .Simple "str"])
    func := fun args =>
      match args with
      | [.vInt n] => .vTup [.vInt (2 * n), .vStr (toString n)]
      | _ => .vTup [] }

/-- Concrete step C : (int, str) -> str of the spec's scenario. -/
def stepC : Step :=
  { sig := mkSignature [⟨"x", .Simple "int", false⟩, ⟨"y", .Simple "str", false⟩]
      (.Simple "str")
    func := fun args =>
      match args with
      | [.vInt n, .vStr s] => .vStr (s ++ toString n)
      | _ => .vStr "" }

/-- The python-version resolution of _collect_requirements as a function of
the step list and the "pipeline" entry's initial value: build the py_versions
mapping and read back py_versions["pipeline"] or py_versions["system"].
finalPyVersion is definitionally pyResolve of the merged pipeline version. -/
def pyResolve (st : List StepMeta) (sysv : String) (x : Option String) : Option String :=
  let d := st.foldl (fun d s => dictInsert s.name s.python_version d)
    [("system", some sysv), ("pipeline", x)]
  match dictGet "pipeline" d with
  | some v => some v
  | none => dictGet "system" d

/-- C2: a producer returning Tuple(t1, t2) composes with a single-parameter
consumer of exactly that tuple type via whole-value mode, with a
two-parameter consumer of types (t1, t2) in order via splat mode, and fails
against a two-parameter consumer with the types swapped. -/
theorem tuple_producer_modes (t1 t2 : String) (h : t1 ≠ t2)
    (pp : List ParameterSpec) (r1 r2 r3 : TypeDescriptor)
    (n m1 m2 k1 k2 : String) :
    check (mkSignature pp (.Tup [.Simple t1, .Simple t2]))
        (mkSignature [⟨n, .Tup [.Simple t1, .Simple t2], false⟩] r1)
      = some .whole
  ∧ check (mkSignature pp (.Tup [.Simple t1, .Simple t2]))
        (mkSignature [⟨m1, .Simple t1, false⟩, ⟨m2, .Simple t2, false⟩] r2)
      = some .splat
  ∧ check (mkSignature pp (.Tup [.Simple t1, .Simple t2]))
        (mkSignature [⟨k1, .Simple t2, false⟩, ⟨k2, .Simple t1, false⟩] r3)
      = none := by
  have h12 : (t1 == t2) = false := by simpa using h
  have h21 : (t2 == t1) = false := by simpa using (Ne.symm h)
  refine ⟨?_, ?_, ?_⟩ <;>
    simp [check, mkSignature, splatCheck, assignable, isTup, tdEq, tdEqList,
          members, h12, h21]
  exact fun he => absurd he h

/-- Concrete instance of tuple_producer_modes with t1 = int, t2 = str
(the shape of test_pipeline_compose_tuple). -/
theorem tuple_producer_modes_witness :
    ("int" : String) ≠ "str"
  ∧ (check (mkSignature [] (.Tup [.Simple "int", .Simple "str"]))
        (mkSignature [⟨"t", .Tup [.Simple "int", .Simple "str"], false⟩]
          (.Simple "int"))
      = some .whole
    ∧ check (mkSignature [] (.Tup [.Simple "int", .Simple "str"]))
        (mkSignature [⟨"x", .Simple "int", false⟩, ⟨"y", .Simple "str", false⟩]
          (.Simple "str"))
      = some .splat
    ∧ check (mkSignature [] (.Tup [.Simple "int", .Simple "str"]))
        (mkSignature [⟨"arg1", .Simple "str", false⟩, ⟨"arg2", .Simple "int", false⟩]
          (.Simple "float"))
      = none) :=
  ⟨by decide,
   tuple_producer_modes "int" "str" (by decide) [] (.Simple "int") (.Simple "str")
     (.Simple "float") "t" "x" "y" "arg1" "arg2"⟩

/-- C3: a producer returning Simple(t) or Union({t}) composes via
whole-value mode with a consumer whose single required parameter accepts
Union({t, u}), regardless of the declared order of the union's members (and
of the union spelling, both of which denote the same descriptor). -/
theorem union_acceptor_order_insensitive (t u : String) (ret : TypeDescriptor)
    (h : ret = .Simple t ∨ ret = .Union [t])
    (pp : List ParameterSpec) (r1 r2 : TypeDescriptor) (n1 n2 : String) :
    check (mkSignature pp ret) (mkSignature [⟨n1, .Union [t, u], false⟩] r1)
      = some .whole
  ∧ check (mkSignature pp ret) (mkSignature [⟨n2, .Union [u, t], false⟩] r2)
      = some .whole := by
  rcases h with h | h <;> subst h <;> constructor <;>
    simp [check, mkSignature, splatCheck, assignable, isTup, tdEq, members]

/-- Concrete instance of union_acceptor_order_insensitive with t = str,
u = int (the shape of test_pipeline_compose_union). -/
theorem union_acceptor_order_insensitive_witness :
    (TypeDescriptor.Simple "str" = TypeDescriptor.Simple "str"
      ∨ TypeDescriptor.Simple "str" = TypeDescriptor.Union ["str"])
  ∧ (check (mkSignature [] (.Simple "str"))
        (mkSignature [⟨"a", .Union ["str", "int"], false⟩] (.Simple "str"))
      = some .whole
    ∧ check (mkSignature [] (.Simple "str"))
        (mkSignature [⟨"b", .Union ["int", "str"], false⟩] (.Simple "str"))
      = some .whole) :=
  ⟨Or.inl rfl,
   union_acceptor_order_insensitive "str" "int" (.Simple "str") (Or.inl rfl)
     [] (.Simple "str") (.Simple "str") "a" "b"⟩

/-- C4: a producer returning a genuine two-member union Union({t, u}) cannot
feed a consumer whose single required parameter accepts only Simple(t): the
checker rejects the pair. -/
theorem union_producer_narrow_fails (t u : String) (h : t ≠ u)
    (pp : List ParameterSpec) (r : TypeDescriptor) (n : String) :
    check (mkSignature pp (.Union [t, u])) (mkSignature [⟨n, .Simple t, false⟩] r)
      = none := by
  have hut : (u == t) = false := by simpa using (Ne.symm h)
  simp [check, mkSignature, splatCheck, assignable, isTup, tdEq, members, hut]
  exact fun he => absurd he (Ne.symm h)

/-- Concrete instance of union_producer_narrow_fails with t = str, u = int
(the wants_int_or_str into str_only case of test_pipeline_compose_union). -/
theorem union_producer_narrow_fails_witness :
    ("str" : String) ≠ "int"
  ∧ check (mkSignature [] (.Union ["str", "int"]))
      (mkSignature [⟨"arg", .Simple "str", false⟩] (.Simple "str")) = none :=
  ⟨by decide,
   union_producer_narrow_fails "str" "int" (by decide) [] (.Simple "str") "arg"⟩

/-- C5: trailing defaulted parameters take no part in composability: a
consumer whose declared parameters are the required ones followed by
defaulted ones is checked exactly like the consumer restricted to its
required parameters, for every producer and hence for both delivery
modes. -/
theorem defaults_ignored (producer : StepSignature)
    (params extra : List ParameterSpec) (r : TypeDescriptor)
    (h : extra.all (fun p => p.has_default) = true) :
    check producer (mkSignature (params ++ extra) r)
      = check producer (mkSignature params r) := by
  have hfilter : (params ++ extra).filter (fun p => !p.has_default)
      = params.filter (fun p => !p.has_default) := by
    rw [List.filter_append]
    have hextra : extra.filter (fun p => !p.has_default) = [] := by
      rw [List.filter_eq_nil_iff]
      intro p hp
      simp [List.all_eq_true.mp h p hp]
    rw [hextra, List.append_nil]
  simp [mkSignature, hfilter]

/-- Concrete instance of defaults_ignored: the consumer
(arg1 : Tuple(int, str), x : List = []) of test_step_compose_ignores_defaults
composes exactly like the consumer with only arg1. -/
theorem defaults_ignored_witness :
    (([⟨"x", TypeDescriptor.Simple "List", true⟩] : List ParameterSpec).all
        (fun p => p.has_default) = true)
  ∧ check (mkSignature [] (.Tup [.Simple "int", .Simple "str"]))
        (mkSignature ([⟨"arg1", .Tup [.Simple "int", .Simple "str"], false⟩]
            ++ [⟨"x", .Simple "List", true⟩]) (.Simple "float"))
      = check (mkSignature [] (.Tup [.Simple "int", .Simple "str"]))
          (mkSignature [⟨"arg1", .Tup [.Simple "int", .Simple "str"], false⟩]
            (.Simple "float")) :=
  ⟨by decide,
   defaults_ignored (mkSignature [] (.Tup [.Simple "int", .Simple "str"]))
     [⟨"arg1", .Tup [.Simple "int", .Simple "str"], false⟩]
     [⟨"x", .Simple "List", true⟩] (.Simple "float") (by decide)⟩

/-- C7: constructing a pipeline from zero steps fails with the fatal
empty-pipeline error, so no pipeline is produced. -/
theorem empty_pipeline_rejected :
    check_steps_composable [] = .error "Cannot have no steps in a pipeline." :=
  rfl

/-- The composite of a non-empty step list exposes the first step's required
parameters (safe_compose propagates the earlier step's parameters). -/
theorem composeAll_required_params (ts : List Step) :
    ∀ (t g : Step), composeAll (t :: ts) = some g →
      g.sig.required_params = t.sig.required_params := by
  induction ts with
  | nil =>
      intro t g h
      simp [composeAll] at h
      rw [← h]
  | cons u us ih =>
      intro t g h
      simp only [composeAll] at h
      cases hc : composeAll (u :: us) with
      | none => rw [hc] at h; simp at h
      | some g' =>
          rw [hc] at h
          dsimp only at h
          unfold safe_compose at h
          cases hm : check t.sig g'.sig with
          | none => rw [hm] at h; simp at h
          | some m =>
              rw [hm] at h
              dsimp only at h
              cases h
              rfl

/-- The checker reads only the consumer's required parameters, never its
return type. -/
theorem check_congr_params (p c1 c2 : StepSignature)
    (h : c1.required_params = c2.required_params) : check p c1 = check p c2 := by
  unfold check
  rw [h]

/-- Invoking the composite of any non-empty step list equals manually
threading the calls left to right under each adjacent pair's delivery
mode (both sides fail together when some pair is not composable). -/
theorem composite_eq_manual (rest : List Step) :
    ∀ (s : Step) (args : List Value),
      (composeAll (s :: rest)).map (fun f => f.func args) = manualRun s rest args := by
  induction rest with
  | nil => intro s args; rfl
  | cons t ts ih =>
      intro s args
      simp only [composeAll, manualRun]
      cases hc : composeAll (t :: ts) with
      | none =>
          have hms : ∀ args2, manualRun t ts args2 = none := by
            intro args2
            have hx := ih t args2
            rw [hc] at hx
            exact hx.symm
          cases hm : check s.sig t.sig with
          | none => simp
          | some m => simp [hms]
      | some g =>
          dsimp only
          have hparams : g.sig.required_params = t.sig.required_params :=
            composeAll_required_params ts t g hc
          have hcheck : check s.sig g.sig = check s.sig t.sig :=
            check_congr_params s.sig g.sig t.sig hparams
          unfold safe_compose
          rw [hcheck]
          cases hm : check s.sig t.sig with
          | none => simp
          | some m =>
              dsimp only
              have hx := ih t (deliver m (s.func args))
              rw [hc] at hx
              simpa using hx

/-- C1: invoking the composite callable of a pipeline of composable steps
produces the same result as manually nesting the underlying step calls
according to each adjacent pair's chosen delivery mode; in particular, for
concrete steps A : (int) -> int, B : (int) -> Tuple(int, str),
C : (int, str) -> str composed in order [A, B, C], invoking with 5 yields
C applied splat-wise to B(A(5)). -/
theorem pipeline_invoke_matches_nested_calls :
    (∀ (s : Step) (rest : List Step) (args : List Value),
        (composeAll (s :: rest)).map (fun f => f.func args) = manualRun s rest args)
  ∧ (composeAll [stepA, stepB, stepC]).map (fun f => f.func [Value.vInt 5])
      = some (stepC.func (deliver .splat (stepB.func (deliver .whole
          (stepA.func [Value.vInt 5]))))) :=
  ⟨fun s rest args => composite_eq_manual rest s args, rfl⟩

/-- An annotation fails the extractor's acceptance test exactly when it is
missing or contains the "Any" marker. -/
theorem annotationOk_eq_false_iff (o : Option TypeDescriptor) :
    annotationOk o = false ↔ o = none ∨ ∃ d, o = some d ∧ containsAny d = true := by
  cases o <;> simp [annotationOk]

/-- C6: step creation fails with UntypedSignatureError — and no signature is
produced — whenever any parameter or the return value lacks an annotation or
any annotation denotes the unconstrained "Any" type; a fully annotated
callable free of "Any" is accepted. -/
theorem extraction_requires_full_typing (c : RawCallable) :
    ((∃ p ∈ c.params, p.annotation = none
        ∨ ∃ d, p.annotation = some d ∧ containsAny d = true)
      ∨ c.return_annotation = none
      ∨ (∃ d, c.return_annotation = some d ∧ containsAny d = true) →
      extract c = .error "UntypedSignatureError")
  ∧ ((∀ p ∈ c.params, ∃ d, p.annotation = some d ∧ containsAny d = false) →
      (∃ d, c.return_annotation = some d ∧ containsAny d = false) →
      (extract c).isOk = true) := by
  constructor
  · intro h
    have hcond : (c.params.all (fun p => annotationOk p.annotation)
        && annotationOk c.return_annotation) = false := by
      rw [Bool.and_eq_false_iff]
      rcases h with ⟨p, hp, hpa⟩ | h | h
      · left
        rw [List.all_eq_false]
        exact ⟨p, hp, by simp [(annotationOk_eq_false_iff _).mpr hpa]⟩
      · right
        exact (annotationOk_eq_false_iff _).mpr (Or.inl h)
      · right
        exact (annotationOk_eq_false_iff _).mpr (Or.inr h)
    unfold extract
    simp [hcond]
  · intro hp hr
    have h1 : c.params.all (fun p => annotationOk p.annotation) = true := by
      rw [List.all_eq_true]
      intro p hmem
      obtain ⟨d, hd, hca⟩ := hp p hmem
      simp [annotationOk, hd, hca]
    obtain ⟨d, hd, hca⟩ := hr
    have h2 : annotationOk c.return_annotation = true := by
      simp [annotationOk, hd, hca]
    unfold extract
    simp [h1, h2, Except.isOk, Except.toBool]

/-- Concrete instance of extraction_requires_full_typing: the
incomplete_annotated callable of test_step_wrapper is rejected and the
well_annotated one is accepted. -/
theorem extraction_requires_full_typing_witness :
    extract ⟨[⟨"a", some (.Simple "int"), false⟩, ⟨"g", none, false⟩],
        some (.Simple "int")⟩ = .error "UntypedSignatureError"
  ∧ (extract ⟨[⟨"a", some (.Simple "int"), false⟩, ⟨"b", some (.Simple "str"), false⟩],
        some (.Tup [.Simple "int", .Simple "str"])⟩).isOk = true :=
  ⟨(extraction_requires_full_typing _).1
     (Or.inl ⟨⟨"g", none, false⟩, by simp, Or.inl rfl⟩),
   (extraction_requires_full_typing _).2
     (by
       intro p hp
       simp only [List.mem_cons, List.not_mem_nil, or_false] at hp
       rcases hp with rfl | rfl
       · exact ⟨.Simple "int", rfl, rfl⟩
       · exact ⟨.Simple "str", rfl, rfl⟩)
     ⟨.Tup [.Simple "int", .Simple "str"], rfl, rfl⟩⟩

/-- The contributor-collecting fold only ever grows the accumulated set. -/
theorem sync_foldl_mono (authors : List String) (steps : List StepMeta) :
    ∀ (acc : List String) (n : String), n ∈ acc →
      n ∈ steps.foldl (fun known s =>
        (known ++ ((s.authors ++ s.contributors).filter
          (fun m => m ∉ authors))).dedup) acc := by
  induction steps with
  | nil => intro acc n h; exact h
  | cons s rest ih =>
      intro acc n h
      rw [List.foldl_cons]
      apply ih
      simp only [List.mem_dedup, List.mem_append]
      left
      exact h

/-- Any step author or contributor outside the pipeline's authors ends up in
the contributor-collecting fold's result. -/
theorem sync_foldl_mem (authors : List String) :
    ∀ (steps : List StepMeta) (acc : List String) (s : StepMeta), s ∈ steps →
      ∀ n, (n ∈ s.authors ∨ n ∈ s.contributors) → n ∉ authors →
      n ∈ steps.foldl (fun known s =>
        (known ++ ((s.authors ++ s.contributors).filter
          (fun m => m ∉ authors))).dedup) acc := by
  intro steps
  induction steps with
  | nil => intro acc s hs; cases hs
  | cons t rest ih =>
      intro acc s hs n hn hna
      rw [List.foldl_cons]
      rcases List.mem_cons.mp hs with rfl | hs'
      · apply sync_foldl_mono
        simp only [List.mem_dedup, List.mem_append, List.mem_filter,
          decide_eq_true_eq]
        right
        exact ⟨hn, hna⟩
      · exact ih _ s hs' n hn hna

/-- C10: after construction, every author and contributor of every step
appears among the pipeline's contributors, except names already among the
pipeline's own authors; the authors list itself is unchanged by the
synchronisation. -/
theorem step_authors_are_contributors (p : PipelineState) (s : StepMeta)
    (hs : s ∈ p.steps) (n : String) (hn : n ∈ s.authors ∨ n ∈ s.contributors)
    (hna : n ∉ p.authors) :
    n ∈ (syncAuthorMetadata p).contributors
  ∧ (syncAuthorMetadata p).authors = p.authors := by
  refine ⟨?_, rfl⟩
  unfold syncAuthorMetadata
  exact sync_foldl_mem p.authors p.steps p.contributors.dedup s hs n hn hna

/-- Concrete instance of step_authors_are_contributors in the shape of
test_step_authors_are_pipeline_contributors. -/
theorem step_authors_are_contributors_witness :
    ((⟨"rate_soup", ["Abbot Mortimer"], ["Friar Hugo"], [], [], [], none⟩ : StepMeta)
        ∈ [(⟨"rate_soup", ["Abbot Mortimer"], ["Friar Hugo"], [], [], [], none⟩ : StepMeta)])
  ∧ ("Abbot Mortimer" : String) ∉ (["Brian Jacques"] : List String)
  ∧ "Abbot Mortimer" ∈ (syncAuthorMetadata
      ⟨["Brian Jacques"], [],
        [⟨"rate_soup", ["Abbot Mortimer"], ["Friar Hugo"], [], [], [], none⟩],
        none, none, [], [], []⟩).contributors
  ∧ (syncAuthorMetadata
      ⟨["Brian Jacques"], [],
        [⟨"rate_soup", ["Abbot Mortimer"], ["Friar Hugo"], [], [], [], none⟩],
        none, none, [], [], []⟩).authors = ["Brian Jacques"] :=
  ⟨List.mem_singleton.mpr rfl, by decide,
   (step_authors_are_contributors
      ⟨["Brian Jacques"], [],
        [⟨"rate_soup", ["Abbot Mortimer"], ["Friar Hugo"], [], [], [], none⟩],
        none, none, [], [], []⟩
      ⟨"rate_soup", ["Abbot Mortimer"], ["Friar Hugo"], [], [], [], none⟩
      (List.mem_singleton.mpr rfl) "Abbot Mortimer"
      (Or.inl (List.mem_singleton.mpr rfl)) (by decide)).1,
   (step_authors_are_contributors
      ⟨["Brian Jacques"], [],
        [⟨"rate_soup", ["Abbot Mortimer"], ["Friar Hugo"], [], [], [], none⟩],
        none, none, [], [], []⟩
      ⟨"rate_soup", ["Abbot Mortimer"], ["Friar Hugo"], [], [], [], none⟩
      (List.mem_singleton.mpr rfl) "Abbot Mortimer"
      (Or.inl (List.mem_singleton.mpr rfl)) (by decide)).2⟩

/-- A requirement present in the explicit list always has an entry in the
name-keyed explicit-requirements map. -/
theorem explicitFor_of_mem (reqs : List Requirement) (r : Requirement)
    (h : r ∈ reqs) : ∃ q, explicitFor reqs r.name = some q := by
  rw [← Option.isSome_iff_exists]
  rw [explicitFor, List.find?_isSome]
  exact ⟨r, List.mem_reverse.mpr h, by simp⟩

/-- C8: step-inferred requirements never enter the pipeline's dependency
manifest — the final pip list is exactly the de-duplicated explicit list. A
step requirement whose package the pipeline requires at a different version
only yields an ignored-requirement warning; one whose package the pipeline
does not require at all only yields an advisory warning and stays out of the
manifest. -/
theorem step_requirements_not_collected (p : PipelineState) (sysv : String)
    (s : StepMeta) (hs : s ∈ p.steps)
    (r1 er : Requirement) (hr1 : r1 ∈ s.pip_dependencies)
    (hexp : explicitFor (mergedPip p) r1.name = some er) (hne : r1 ≠ er)
    (r2 : Requirement) (hr2 : r2 ∈ s.pip_dependencies)
    (hmiss : explicitFor (mergedPip p) r2.name = none) :
    (collectRequirements p sysv).1.pip_dependencies = (mergedPip p).dedup
  ∧ DepWarning.ignoredStepReq s.name r1 er ∈ (collectRequirements p sysv).2
  ∧ DepWarning.missingStepReq s.name r2 ∈ (collectRequirements p sysv).2
  ∧ r2 ∉ (collectRequirements p sysv).1.pip_dependencies := by
  refine ⟨rfl, ?_, ?_, ?_⟩
  · simp only [collectRequirements]
    apply List.mem_append_left
    rw [List.mem_flatMap]
    refine ⟨s, hs, List.mem_append_left _ ?_⟩
    simp only [stepPipWarnings]
    rw [List.mem_filterMap]
    refine ⟨r1, hr1, ?_⟩
    rw [hexp]
    simp [hne]
  · simp only [collectRequirements]
    apply List.mem_append_left
    rw [List.mem_flatMap]
    refine ⟨s, hs, List.mem_append_left _ ?_⟩
    simp only [stepPipWarnings]
    rw [List.mem_filterMap]
    refine ⟨r2, hr2, ?_⟩
    rw [hmiss]
  · intro hmem
    have hmem2 : r2 ∈ mergedPip p := by
      have : (collectRequirements p sysv).1.pip_dependencies = (mergedPip p).dedup := rfl
      rw [this, List.mem_dedup] at hmem
      exact hmem
    obtain ⟨q, hq⟩ := explicitFor_of_mem (mergedPip p) r2 hmem2
    rw [hmiss] at hq
    cases hq

/-- Concrete instance of step_requirements_not_collected in the shape of
test_pipeline_does_not_collect_step_requirements: the pipeline pins
numpy==1.0, its step infers numpy==2.0 (ignored with a warning) and
fake-package==9.9.9 (advisory warning, not collected). -/
theorem step_requirements_not_collected_witness :
    (collectRequirements
        ⟨[], [], [⟨"uses_model", [], [], [⟨"numpy", "==2.0"⟩, ⟨"fake-package", "==9.9.9"⟩],
            [], [], none⟩], none, none, [⟨"numpy", "==1.0"⟩], [], []⟩
        "3.10.0").1.pip_dependencies
      = (mergedPip
        ⟨[], [], [⟨"uses_model", [], [], [⟨"numpy", "==2.0"⟩, ⟨"fake-package", "==9.9.9"⟩],
            [], [], none⟩], none, none, [⟨"numpy", "==1.0"⟩], [], []⟩).dedup
  ∧ DepWarning.ignoredStepReq "uses_model" ⟨"numpy", "==2.0"⟩ ⟨"numpy", "==1.0"⟩
      ∈ (collectRequirements
        ⟨[], [], [⟨"uses_model", [], [], [⟨"numpy", "==2.0"⟩, ⟨"fake-package", "==9.9.9"⟩],
            [], [], none⟩], none, none, [⟨"numpy", "==1.0"⟩], [], []⟩
        "3.10.0").2
  ∧ DepWarning.missingStepReq "uses_model" ⟨"fake-package", "==9.9.9"⟩
      ∈ (collectRequirements
        ⟨[], [], [⟨"uses_model", [], [], [⟨"numpy", "==2.0"⟩, ⟨"fake-package", "==9.9.9"⟩],
            [], [], none⟩], none, none, [⟨"numpy", "==1.0"⟩], [], []⟩
        "3.10.0").2
  ∧ (⟨"fake-package", "==9.9.9"⟩ : Requirement)
      ∉ (collectRequirements
        ⟨[], [], [⟨"uses_model", [], [], [⟨"numpy", "==2.0"⟩, ⟨"fake-package", "==9.9.9"⟩],
            [], [], none⟩], none, none, [⟨"numpy", "==1.0"⟩], [], []⟩
        "3.10.0").1.pip_dependencies :=
  step_requirements_not_collected
    ⟨[], [], [⟨"uses_model", [], [], [⟨"numpy", "==2.0"⟩, ⟨"fake-package", "==9.9.9"⟩],
        [], [], none⟩], none, none, [⟨"numpy", "==1.0"⟩], [], []⟩
    "3.10.0"
    ⟨"uses_model", [], [], [⟨"numpy", "==2.0"⟩, ⟨"fake-package", "==9.9.9"⟩], [], [], none⟩
    (by decide)
    ⟨"numpy", "==2.0"⟩ ⟨"numpy", "==1.0"⟩ (by decide) rfl (by decide)
    ⟨"fake-package", "==9.9.9"⟩ (by decide) rfl

/-- Lookup in a non-empty association list checks the head first. -/
theorem dictGet_cons (k : String) (e : String × Option String)
    (l : List (String × Option String)) :
    dictGet k (e :: l) = if e.1 == k then e.2 else dictGet k l := by
  by_cases h : (e.1 == k) = true
  · simp [dictGet, List.find?_cons_of_pos, h]
  · simp only [Bool.not_eq_true] at h
    simp [dictGet, List.find?_cons_of_neg, h]

/-- Looking up the key just inserted yields the inserted value. -/
theorem dictGet_insert_same (k : String) (v : Option String) :
    ∀ d : List (String × Option String), dictGet k (dictInsert k v d) = v := by
  intro d
  induction d with
  | nil => simp [dictInsert, dictGet_cons]
  | cons e rest ih =>
      rw [dictInsert]
      by_cases h : (e.1 == k) = true
      · rw [if_pos h, dictGet_cons]
        simp
      · simp only [Bool.not_eq_true] at h
        rw [if_neg (by simp [h]), dictGet_cons, if_neg (by simp [h]), ih]

/-- Inserting under a different key leaves a lookup unchanged. -/
theorem dictGet_insert_other (k k' : String) (v : Option String)
    (hk : (k' == k) = false) :
    ∀ d : List (String × Option String),
      dictGet k (dictInsert k' v d) = dictGet k d := by
  intro d
  induction d with
  | nil => simp [dictInsert, dictGet_cons, hk, dictGet]
  | cons e rest ih =>
      rw [dictInsert]
      by_cases h : (e.1 == k') = true
      · rw [if_pos h, dictGet_cons, dictGet_cons]
        have he : e.1 = k' := by simpa using h
        simp [he, hk]
      · simp only [Bool.not_eq_true] at h
        rw [if_neg (by simp [h]), dictGet_cons, dictGet_cons, ih]

/-- The py_versions fold preserves agreement of two initial dictionaries at
any fixed key. -/
theorem pyfold_congr (k : String) :
    ∀ (steps : List StepMeta) (d1 d2 : List (String × Option String)),
      dictGet k d1 = dictGet k d2 →
      dictGet k (steps.foldl (fun d s => dictInsert s.name s.python_version d) d1)
        = dictGet k (steps.foldl (fun d s => dictInsert s.name s.python_version d) d2) := by
  intro steps
  induction steps with
  | nil => intro d1 d2 h; exact h
  | cons s rest ih =>
      intro d1 d2 h
      rw [List.foldl_cons, List.foldl_cons]
      apply ih
      by_cases hs : (s.name == k) = true
      · have : s.name = k := by simpa using hs
        subst this
        rw [dictGet_insert_same, dictGet_insert_same]
      · simp only [Bool.not_eq_true] at hs
        rw [dictGet_insert_other k s.name _ hs, dictGet_insert_other k s.name _ hs]
        exact h

/-- At any key, the py_versions fold either leaves the initial dictionary's
value untouched (no step overwrites it) or yields a value independent of the
initial dictionary. -/
theorem pyfold_cases (k : String) :
    ∀ steps : List StepMeta,
      (∀ d, dictGet k (steps.foldl (fun d s => dictInsert s.name s.python_version d) d)
          = dictGet k d)
      ∨ (∀ d1 d2,
          dictGet k (steps.foldl (fun d s => dictInsert s.name s.python_version d) d1)
            = dictGet k (steps.foldl (fun d s => dictInsert s.name s.python_version d) d2)) := by
  intro steps
  induction steps with
  | nil => exact Or.inl (fun d => rfl)
  | cons s rest ih =>
      by_cases hs : (s.name == k) = true
      · right
        intro d1 d2
        rw [List.foldl_cons, List.foldl_cons]
        apply pyfold_congr
        have : s.name = k := by simpa using hs
        subst this
        rw [dictGet_insert_same, dictGet_insert_same]
      · simp only [Bool.not_eq_true] at hs
        rcases ih with hL | hR
        · left
          intro d
          rw [List.foldl_cons, hL, dictGet_insert_other k s.name _ hs]
        · right
          intro d1 d2
          rw [List.foldl_cons, List.foldl_cons]
          exact hR _ _

/-- finalPyVersion factors through pyResolve. -/
theorem finalPyVersion_eq_pyResolve (p : PipelineState) (sysv : String) :
    finalPyVersion p sysv = pyResolve p.steps sysv (mergedPyVersion p) := rfl

/-- The initial py_versions mapping holds the merged pipeline version under
"pipeline". -/
theorem dictGet_init_pipeline (sysv : String) (x : Option String) :
    dictGet "pipeline" [("system", some sysv), ("pipeline", x)] = x := by
  rw [dictGet_cons, dictGet_cons]
  simp

/-- The initial py_versions mapping holds the system version under
"system". -/
theorem dictGet_init_system (sysv : String) (x : Option String) :
    dictGet "system" [("system", some sysv), ("pipeline", x)] = some sysv := by
  rw [dictGet_cons]
  simp

/-- Resolving the python version a second time, starting from the first
resolution's result, changes nothing. -/
theorem pyResolve_idem (st : List StepMeta) (sysv : String) (pv : Option String) :
    pyResolve st sysv (pyResolve st sysv pv) = pyResolve st sysv pv := by
  have hsys : ∀ x y : Option String,
      dictGet "system" (st.foldl (fun d s => dictInsert s.name s.python_version d)
        [("system", some sysv), ("pipeline", x)])
      = dictGet "system" (st.foldl (fun d s => dictInsert s.name s.python_version d)
        [("system", some sysv), ("pipeline", y)]) := by
    intro x y
    exact pyfold_congr "system" st _ _
      (by rw [dictGet_init_system, dictGet_init_system])
  rcases pyfold_cases "pipeline" st with hL | hR
  · have hpl : ∀ x : Option String,
        dictGet "pipeline" (st.foldl (fun d s => dictInsert s.name s.python_version d)
          [("system", some sysv), ("pipeline", x)]) = x := by
      intro x
      rw [hL, dictGet_init_pipeline]
    simp only [pyResolve]
    rw [hpl, hpl]
    cases pv with
    | some v => rfl
    | none =>
        cases hS : dictGet "system"
            (st.foldl (fun d s => dictInsert s.name s.python_version d)
              [("system", some sysv), ("pipeline", (none : Option String))]) with
        | some w => rfl
        | none => exact hS
  · show (match dictGet "pipeline"
          (st.foldl (fun d s => dictInsert s.name s.python_version d)
            [("system", some sysv), ("pipeline", pyResolve st sysv pv)]) with
        | some v => some v
        | none => dictGet "system"
            (st.foldl (fun d s => dictInsert s.name s.python_version d)
              [("system", some sysv), ("pipeline", pyResolve st sysv pv)]))
        = pyResolve st sysv pv
    rw [hR [("system", some sysv), ("pipeline", pyResolve st sysv pv)]
          [("system", some sysv), ("pipeline", pv)],
        hsys (pyResolve st sysv pv) pv]
    rfl

/-- C9: dependency reconciliation is idempotent — running
_collect_requirements a second time over the same step list yields the same
pip package set, the same conda package set, and the same interpreter
version as the first run (set/ordering-insensitive for the package lists). -/
theorem reconciliation_idempotent (p : PipelineState) (sysv : String) :
    (∀ q : Requirement,
        q ∈ ((collectRequirements ((collectRequirements p sysv).1) sysv).1).pip_dependencies
          ↔ q ∈ ((collectRequirements p sysv).1).pip_dependencies)
  ∧ (∀ c : String,
        c ∈ ((collectRequirements ((collectRequirements p sysv).1) sysv).1).conda_dependencies
          ↔ c ∈ ((collectRequirements p sysv).1).conda_dependencies)
  ∧ ((collectRequirements ((collectRequirements p sysv).1) sysv).1).python_version
      = ((collectRequirements p sysv).1).python_version := by
  obtain ⟨au, co, st, rf, pv, pip, conda, mu⟩ := p
  refine ⟨?_, ?_, ?_⟩
  · intro q
    cases rf with
    | none =>
        simp [collectRequirements, mergedPip, List.mem_dedup]
    | some f =>
        cases f with
        | condaYml pyv cds pds =>
            simp [collectRequirements, mergedPip, List.mem_dedup, List.mem_append]
        | reqsTxt ds =>
            simp [collectRequirements, mergedPip, List.mem_dedup, List.mem_append]
  · intro c
    cases rf with
    | none =>
        simp [collectRequirements, mergedConda, List.mem_dedup]
    | some f =>
        cases f with
        | condaYml pyv cds pds =>
            simp [collectRequirements, mergedConda, List.mem_dedup, List.mem_append]
        | reqsTxt ds =>
            simp [collectRequirements, mergedConda, List.mem_dedup]
  · cases rf with
    | none => exact pyResolve_idem st sysv pv
    | some f =>
        cases f with
        | condaYml pyv cds pds =>
            cases pyv with
            | none => exact pyResolve_idem st sysv pv
            | some v => rfl
        | reqsTxt ds => exact pyResolve_idem st sysv pv

end Garden
